import Mathlib

/-!
Verification development for the hashtag-cluster explorer dashboard
(source file: explore_app_streamlit.py).

Modelling conventions.  Python strings are embedded as `List Char`, and
Python's `s.replace(old, "")` is `replaceAll`, written with a fuel
argument equal to the scanned length so that it is structurally
recursive and computes by `decide` and `rfl`.  Python exceptions are
embedded with `Except`: the kinds that matter to the program are
`ValueError` and `SyntaxError` (the two kinds caught by
`clean_itemset_string`) and `TypeError` (raised by `sorted` or
`str.join` on non-string data).  `ast.literal_eval` is embedded on the
fragment of inputs the program can feed it: bracketed lists of quoted
string literals (with backslash escapes resolved, as Python does) and
of integer literals; every other shape is a parse error, as in Python, where such inputs raise `ValueError` or
`SyntaxError` (both caught by the caller, so the exact kind is
immaterial).  The loader `load_data` is embedded over an explicit
environment describing the outcome of each file access.
-/

/-- Python's s.startswith(pat) on explicit character lists. -/
def startsWithPat : List Char → List Char → Bool
  | [], _ => true
  | _ :: _, [] => false
  | p :: ps, c :: cs => p == c && startsWithPat ps cs

/-- One left-to-right scan removing every non-overlapping occurrence of
the pattern, Python's s.replace(pat, ""), processing at most `n` list
cells; with `n` at least the length of the input this is exactly the
Python semantics. -/
def replaceAllFuel (pat : List Char) : Nat → List Char → List Char
  | 0, s => s
  | _ + 1, [] => []
  | n + 1, c :: cs =>
    if startsWithPat pat (c :: cs) then replaceAllFuel pat n ((c :: cs).drop pat.length)
    else c :: replaceAllFuel pat n cs

/-- Python's s.replace(pat, "") : remove every occurrence of `pat`. -/
def replaceAll (pat s : List Char) : List Char := replaceAllFuel pat s.length s

/-- The exception kinds relevant to the program: the two kinds that
clean_itemset_string catches, and the kind raised by sorted or join on
non-string data. -/
inductive PyErr where
  | valErr
  | synErr
  | typeErr
  deriving DecidableEq, Repr

/-- A Python literal value produced by the embedded literal_eval:
a string or an integer. -/
inductive PyVal where
  | pstr (s : List Char)
  | pint (n : Int)
  deriving DecidableEq, Repr

/-- Skip leading space characters. -/
def skipSpaces : List Char → List Char
  | ' ' :: rest => skipSpaces rest
  | s => s

/-- The value of a hexadecimal digit, or `none`. -/
def hexVal (c : Char) : Option Nat :=
  if '0' ≤ c ∧ c ≤ '9' then some (c.toNat - 48)
  else if 'a' ≤ c ∧ c ≤ 'f' then some (c.toNat - 87)
  else if 'A' ≤ c ∧ c ≤ 'F' then some (c.toNat - 55)
  else none

/-- Scan the body of a quoted string literal up to the closing quote
character `q`, resolving Python backslash escapes: the quote, backslash,
newline, tab and carriage-return escapes and hex escapes of the form
backslash-x-H-H (so a parsed element can contain quote or brace
characters that never appear literally in the input); an unrecognized
escape keeps the backslash and the following character, as Python does.
Returns the body and the remaining input, or `none` when the literal is
unterminated or a hex escape is malformed. -/
def scanStringLit (q : Char) : List Char → Option (List Char × List Char)
  | [] => none
  | c :: cs =>
    if c = q then some ([], cs)
    else if c = '\\' then
      match cs with
      | [] => none
      | e :: cs2 =>
        if e = '\\' ∨ e = '\x27' ∨ e = '\x22' then
          match scanStringLit q cs2 with
          | some (acc, rest) => some (e :: acc, rest)
          | none => none
        else if e = 'n' then
          match scanStringLit q cs2 with
          | some (acc, rest) => some (Char.ofNat 10 :: acc, rest)
          | none => none
        else if e = 't' then
          match scanStringLit q cs2 with
          | some (acc, rest) => some (Char.ofNat 9 :: acc, rest)
          | none => none
        else if e = 'r' then
          match scanStringLit q cs2 with
          | some (acc, rest) => some (Char.ofNat 13 :: acc, rest)
          | none => none
        else if e = 'x' then
          match cs2 with
          | h1 :: h2 :: cs3 =>
            match hexVal h1, hexVal h2 with
            | some a, some b =>
              match scanStringLit q cs3 with
              | some (acc, rest) => some (Char.ofNat (16 * a + b) :: acc, rest)
              | none => none
            | _, _ => none
          | _ => none
        else
          match scanStringLit q cs2 with
          | some (acc, rest) => some ('\\' :: e :: acc, rest)
          | none => none
    else
      match scanStringLit q cs with
      | some (acc, rest) => some (c :: acc, rest)
      | none => none

/-- Greedily split off a run of decimal digits. -/
def spanDigits : List Char → List Char × List Char
  | [] => ([], [])
  | c :: cs =>
    if c.isDigit then
      let p := spanDigits cs
      (c :: p.1, p.2)
    else ([], c :: cs)

/-- Decimal digits to a natural number. -/
def digitsToNat (ds : List Char) : Nat :=
  List.foldl (fun n c => n * 10 + (c.toNat - 48)) 0 ds

/-- Parse one list element: a quoted string literal or an optionally
negated integer literal.  Anything else is a parse error, as in
ast.literal_eval where a non-literal expression raises ValueError. -/
def parseElem : List Char → Except PyErr (PyVal × List Char)
  | [] => .error .valErr
  | c :: cs =>
    if c = '\x27' ∨ c = '\x22' then
      match scanStringLit c cs with
      | some (s, rest) => .ok (.pstr s, rest)
      | none => .error .valErr
    else if c = '-' then
      match spanDigits cs with
      | ([], _) => .error .valErr
      | (ds, rest) => .ok (.pint (-(digitsToNat ds : Int)), rest)
    else if c.isDigit then
      let p := spanDigits (c :: cs)
      .ok (.pint (digitsToNat p.1), p.2)
    else .error .valErr

/-- Parse the items of a bracketed list after the opening bracket,
allowing spaces and a trailing comma, up to the closing bracket, which
must end the input.  The fuel is at least the input length, so it never
runs out on a successful parse. -/
def parseItemsFuel : Nat → List Char → Except PyErr (List PyVal)
  | 0, _ => .error .valErr
  | n + 1, s =>
    match skipSpaces s with
    | ']' :: rest => if skipSpaces rest = [] then .ok [] else .error .valErr
    | s' =>
      match parseElem s' with
      | .error e => .error e
      | .ok (v, rest) =>
        match skipSpaces rest with
        | ',' :: rest2 =>
          match parseItemsFuel n rest2 with
          | .error e => .error e
          | .ok vs => .ok (v :: vs)
        | ']' :: rest2 => if skipSpaces rest2 = [] then .ok [v] else .error .valErr
        | _ => .error .valErr

/-- The embedded ast.literal_eval, on the fragment the program feeds
it: a bracketed list of string or integer literals.  Any other input is
a parse error (ValueError here; Python may also report SyntaxError, and
the caller catches both, so the distinction never matters). -/
def pyLiteralEvalList : List Char → Except PyErr (List PyVal)
  | '[' :: rest => parseItemsFuel (rest.length + 1) rest
  | _ => .error .valErr

/-- Lexicographic comparison of strings by code point, Python's string
order. -/
def lexLeChars : List Char → List Char → Bool
  | [], _ => true
  | _ :: _, [] => false
  | a :: as, b :: bs => if a = b then lexLeChars as bs else decide (a < b)

/-- Insert into a lexicographically sorted list of strings. -/
def insertLex (x : List Char) : List (List Char) → List (List Char)
  | [] => [x]
  | y :: ys => if lexLeChars x y then x :: y :: ys else y :: insertLex x ys

/-- Stable insertion sort of strings in Python's string order. -/
def sortLexList : List (List Char) → List (List Char)
  | [] => []
  | x :: xs => insertLex x (sortLexList xs)

/-- Insert into a sorted list of integers. -/
def insertIntLe (x : Int) : List Int → List Int
  | [] => [x]
  | y :: ys => if x ≤ y then x :: y :: ys else y :: insertIntLe x ys

/-- Sort integers ascending. -/
def sortIntList : List Int → List Int
  | [] => []
  | x :: xs => insertIntLe x (sortIntList xs)

/-- True when every value is a string. -/
def allStr (l : List PyVal) : Bool :=
  l.all fun v => match v with | .pstr _ => true | .pint _ => false

/-- True when every value is an integer. -/
def allInt (l : List PyVal) : Bool :=
  l.all fun v => match v with | .pstr _ => false | .pint _ => true

/-- The strings of a list of values (used when all values are strings). -/
def theStrings (l : List PyVal) : List (List Char) :=
  l.filterMap fun v => match v with | .pstr s => some s | .pint _ => none

/-- The integers of a list of values. -/
def theInts (l : List PyVal) : List Int :=
  l.filterMap fun v => match v with | .pstr _ => none | .pint n => some n

/-- Python's sorted: succeeds on homogeneous lists, raises TypeError on
a mixed list (comparing str with int is unsupported). -/
def pySorted (l : List PyVal) : Except PyErr (List PyVal) :=
  if allStr l then .ok ((sortLexList (theStrings l)).map .pstr)
  else if allInt l then .ok ((sortIntList (theInts l)).map .pint)
  else .error .typeErr

/-- Join strings with the separator ", ". -/
def joinComma : List (List Char) → List Char
  | [] => []
  | [x] => x
  | x :: y :: ys => x ++ [',', ' '] ++ joinComma (y :: ys)

/-- Python's ", ".join: raises TypeError when some item is not a
string. -/
def pyJoinComma (l : List PyVal) : Except PyErr (List Char) :=
  if allStr l then .ok (joinComma (theStrings l)) else .error .typeErr

/-- The wrapper pattern "frozenset(\x7b". -/
def frozensetPat : List Char := "frozenset(\x7b".data

/-- The wrapper pattern "\x7d)". -/
def closeBracePat : List Char := "\x7d)".data

/-- Lines 20 of the source: strip the frozenset wrapper and residual
brace characters, in the order the four replace calls are chained. -/
def strip_wrappers (s : List Char) : List Char :=
  replaceAll ['\x7d'] (replaceAll ['\x7b'] (replaceAll closeBracePat (replaceAll frozensetPat s)))

/-- Python clean_str.startswith("[") and clean_str.endswith("]"). -/
def listShaped (l : List Char) : Bool :=
  (l.head? == some '[') && (l.getLast? == some ']')

/-- The fallback of clean_itemset_string: strip single then double
quote characters. -/
def remove_quotes (s : List Char) : List Char :=
  replaceAll ['\x22'] (replaceAll ['\x27'] s)

/-- Which exception kinds the except clause of clean_itemset_string
catches: exactly ValueError and SyntaxError. -/
def isCaughtErr : PyErr → Bool
  | .valErr => true
  | .synErr => true
  | .typeErr => false

/-- The try block of clean_itemset_string: when the stripped text is
list-shaped, literal_eval it, sort the items and join them with ", ";
`none` means the block finished without producing a return value. -/
def try_branch (c : List Char) : Except PyErr (Option (List Char)) :=
  if listShaped c then
    match pyLiteralEvalList c with
    | .error e => .error e
    | .ok items =>
      match pySorted items with
      | .error e => .error e
      | .ok sortedItems =>
        match pyJoinComma sortedItems with
        | .error e => .error e
        | .ok joined => .ok (some joined)
  else .ok none

/-- Lines 11-33 of the source: clean_itemset_string on a string input.
The wrapper substrings are stripped; if the remainder is list-shaped it
is parsed, sorted and joined, with ValueError and SyntaxError caught
and routed to the quote-stripping fallback; any other exception
escapes. -/
def clean_itemset_string (s : List Char) : Except PyErr (List Char) :=
  let c := strip_wrappers s
  match try_branch c with
  | .ok (some r) => .ok r
  | .ok none => .ok (remove_quotes c)
  | .error e => if isCaughtErr e then .ok (remove_quotes c) else .error e

/-- A row of the required primary table clustered_tweets.csv. -/
structure TweetRow where
  cluster : Int
  clean_text : List Char
  hashtags : List Char
  deriving DecidableEq, Repr

/-- A row of the rules table apriori_rules_ALL_raw.csv; the lift,
support and confidence metrics are embedded as rationals. -/
structure Rule where
  antecedents : List Char
  consequents : List Char
  support : ℚ
  confidence : ℚ
  lift : ℚ
  cluster : Int
  deriving DecidableEq, Repr

/-- The summary table is never interpreted, only displayed. -/
abbrev SummaryTable : Type := List (List Char)

deriving instance DecidableEq for Except

/-- The two user-visible messages load_data can emit. -/
inductive Msg where
  | couldNotFindClusterFile
  | couldNotLoadRulesFile
  deriving DecidableEq, Repr

/-- How reading the required primary table can go: the file is read,
it is missing (FileNotFoundError, the one kind load_data catches), or
reading fails for another reason (an exception of another kind). -/
inductive ClusterRead where
  | ok (t : List TweetRow)
  | fileNotFound
  | otherError
  deriving DecidableEq, Repr

/-- The outcome of every file access load_data performs.  For each
optional file, `none` means the file does not exist and `some (.error ())`
means the access raises. -/
structure Env where
  clusterCsv : ClusterRead
  summaryCsv : Option (Except Unit SummaryTable)
  rulesCsv : Option (Except Unit (List Rule))
  umapHtml : Option (Except Unit (List Char))
  clusterPlotFiles : List (List Char)
  deriving DecidableEq

/-- The five-component tuple load_data returns. -/
structure LoadResult where
  df : Option (List TweetRow)
  summary : Option SummaryTable
  rules : Option (List Rule)
  umap_html_content : Option (List Char)
  cluster_plot_files : Option (List (List Char))
  deriving DecidableEq

/-- The first column pass of the rules block: apply
clean_itemset_string to the antecedents field of every row, as
rules['antecedents'].apply(clean_itemset_string) does; an exception
from the cleaner propagates and the column assignment never happens. -/
def clean_antecedents_col : List Rule → Except PyErr (List Rule)
  | [] => .ok []
  | r :: rs =>
    match clean_itemset_string r.antecedents with
    | .error e => .error e
    | .ok a =>
      match clean_antecedents_col rs with
      | .error e => .error e
      | .ok rs' => .ok ({ r with antecedents := a } :: rs')

/-- The second column pass of the rules block: apply
clean_itemset_string to the consequents field of every row. -/
def clean_consequents_col : List Rule → Except PyErr (List Rule)
  | [] => .ok []
  | r :: rs =>
    match clean_itemset_string r.consequents with
    | .error e => .error e
    | .ok c =>
      match clean_consequents_col rs with
      | .error e => .error e
      | .ok rs' => .ok ({ r with consequents := c } :: rs')

/-- Lines 54-64 of the source: the rules block.  A missing file leaves
rules as None silently; a read failure leaves rules as None with the
warning.  But rules is assigned inside the try as soon as the read
succeeds, so a failure of a later cleaning pass emits the warning while
rules keeps the table bound so far: the raw table when the antecedents
pass fails, the antecedents-cleaned table when the consequents pass
fails. -/
def load_rules_step : Option (Except Unit (List Rule)) → Option (List Rule) × List Msg
  | none => (none, [])
  | some (.error _) => (none, [Msg.couldNotLoadRulesFile])
  | some (.ok raw) =>
    match clean_antecedents_col raw with
    | .error _ => (some raw, [Msg.couldNotLoadRulesFile])
    | .ok r1 =>
      match clean_consequents_col r1 with
      | .error _ => (some r1, [Msg.couldNotLoadRulesFile])
      | .ok r2 => (some r2, [])

/-- Lines 37-72 of the source: load_data.  Only FileNotFoundError on
the primary table is caught (fatal path: error message, all-None
tuple); a different primary read failure, or a raising summary or umap
read, propagates as an uncaught exception (`Except.error ()`). -/
def load_data (env : Env) : Except Unit (LoadResult × List Msg) :=
  match env.clusterCsv with
  | .fileNotFound => .ok (⟨none, none, none, none, none⟩, [Msg.couldNotFindClusterFile])
  | .otherError => .error ()
  | .ok df =>
    match env.summaryCsv with
    | some (.error _) => .error ()
    | summaryOpt =>
      let summary : Option SummaryTable :=
        match summaryOpt with
        | some (.ok t) => some t
        | _ => none
      let rulesStep := load_rules_step env.rulesCsv
      match env.umapHtml with
      | some (.error _) => .error ()
      | umapOpt =>
        let umap : Option (List Char) :=
          match umapOpt with
          | some (.ok h) => some h
          | _ => none
        .ok (⟨some df, summary, rulesStep.1, umap, some env.clusterPlotFiles⟩, rulesStep.2)

/-- Fuelled first-occurrence deduplication (pandas Series.unique keeps
the first occurrence of each value). -/
def pandas_unique_fuel : Nat → List Int → List Int
  | 0, _ => []
  | _ + 1, [] => []
  | n + 1, x :: xs => x :: pandas_unique_fuel n (xs.filter (fun y => !(y == x)))

/-- pandas df['cluster'].unique(): distinct values in first-occurrence
order. -/
def pandas_unique (l : List Int) : List Int := pandas_unique_fuel l.length l

/-- Line 83 of the source: clusters = sorted(df['cluster'].unique()). -/
def clusters_of (df : List TweetRow) : List Int :=
  List.insertionSort (fun a b : Int => a ≤ b) (pandas_unique (df.map (fun r => r.cluster)))

/-- Lines 87-91 of the source: the default index into the sorted
cluster list: the position of 0 when present, else of -1 when present,
else 0. -/
def default_index (cs : List Int) : Nat :=
  if 0 ∈ cs then cs.indexOf 0
  else if -1 ∈ cs then cs.indexOf (-1)
  else 0

/-- The cluster the selectbox selects by default: the element of the
sorted cluster list at the default index. -/
def selected_cluster_default (cs : List Int) : Int :=
  cs.getD (default_index cs) 0

/-- Lines 137-144 of the source: the rows the rules panel displays for
a selected cluster: filter on the cluster field, sort by lift
descending, keep the first 20.  When the filter is empty the panel
shows a message and this slice is empty. -/
def displayed_rules (rs : List Rule) (sel : Int) : List Rule :=
  List.take 20
    (List.insertionSort (fun a b : Rule => b.lift ≤ a.lift)
      (rs.filter (fun r => r.cluster == sel)))

/-- What the rules panel shows. -/
inductive RulesView where
  | noRulesData
  | noRulesForCluster
  | rulesTable (rows : List Rule)
  deriving DecidableEq

/-- Lines 133-146 of the source: the rules panel.  With no rules data
it shows the placeholder; with rules but an empty filter it shows the
per-cluster message; otherwise the sorted top-20 slice. -/
def render_rules_section (rules : Option (List Rule)) (sel : Int) : RulesView :=
  match rules with
  | none => .noRulesData
  | some rs =>
    if (rs.filter (fun r => r.cluster == sel)).isEmpty then .noRulesForCluster
    else .rulesTable (displayed_rules rs sel)

/-- Line 158 of the source: the derived hashtags_str column value, from
the textual form of the hashtags field:
x.replace("[","").replace("]","").replace("'",""). -/
def hashtags_str_derive (s : List Char) : List Char :=
  replaceAll ['\x27'] (replaceAll [']'] (replaceAll ['['] s))

/-- The three ways a session can end after load_data: an uncaught
exception, the explicit st.stop on the fatal path, or a full render of
the page for the default cluster. -/
inductive AppOutcome where
  | crashed
  | stopped
  | rendered (selected : Int)
  deriving DecidableEq

/-- Lines 78-93 of the source: the caller of load_data.  An uncaught
exception crashes the session; if df is None the script stops before
any rendering; otherwise the page renders with the default cluster
selected. -/
def app_outcome (env : Env) : AppOutcome :=
  match load_data env with
  | .error _ => .crashed
  | .ok (res, _) =>
    match res.df with
    | none => .stopped
    | some df => .rendered (selected_cluster_default (clusters_of df))

/-- A term avoiding brace and quote characters: the shape of a hashtag
inside the frozenset serialization. -/
def goodTerm (X : List Char) : Bool :=
  X.all fun c => !(c == '\x7b' || c == '\x7d' || c == '\x27' || c == '\x22')

/-- The body between the wrapper parts of a two-element frozenset
serialization: the two quoted terms separated by ", ". -/
def quotedBody (X Y : List Char) : List Char :=
  '\x27' :: (X ++ (['\x27', ',', ' ', '\x27'] ++ (Y ++ ['\x27'])))

/-- The serialized form frozenset with two quoted terms, as the
upstream pipeline writes it. -/
def frozensetTwo (X Y : List Char) : List Char :=
  frozensetPat ++ (quotedBody X Y ++ closeBracePat)

instance : IsTotal Rule (fun a b : Rule => b.lift ≤ a.lift) :=
  ⟨fun a b => le_total b.lift a.lift⟩

instance : IsTrans Rule (fun a b : Rule => b.lift ≤ a.lift) :=
  ⟨fun _ _ _ hab hbc => le_trans hbc hab⟩

/-- A one-row primary table used to instantiate the loader theorems. -/
def demoRow : TweetRow := ⟨0, [], []⟩

/-- An environment whose primary table file exists but cannot be read
(for example a permission or parse failure, anything other than
FileNotFoundError). -/
def envUnreadable : Env := ⟨ClusterRead.otherError, none, none, none, []⟩

/-- An environment whose primary table file is missing. -/
def envFatal : Env := ⟨ClusterRead.fileNotFound, none, none, none, []⟩

/-- An environment whose rules file exists but raises on load. -/
def envRulesBad : Env := ⟨ClusterRead.ok [demoRow], none, some (Except.error ()), none, []⟩

/-- A rules row whose antecedents cell makes the cleaner raise: the
bracketed integer list parses and its join raises TypeError. -/
def badRule : Rule := ⟨"[1, 2]".data, "x".data, 0, 0, 0, 0⟩

/-- An environment whose rules file reads successfully but whose
in-place cleaning then raises. -/
def envRulesCleanFail : Env :=
  ⟨ClusterRead.ok [demoRow], none, some (Except.ok [badRule]), none, []⟩

/-- A fully healthy environment with the optional files absent. -/
def envOk : Env := ⟨ClusterRead.ok [demoRow], none, none, none, []⟩

/-- The tuple load_data returns on envOk. -/
def resOk : LoadResult := ⟨some [demoRow], none, none, none, some []⟩

/-- A two-cluster primary table whose identifiers are -1 and 2. -/
def demoDfNoZero : List TweetRow := [⟨-1, [], []⟩, ⟨2, [], []⟩]
theorem startsWithPat_subset {p l : List Char} (h : startsWithPat p l = true) :
    ∀ x ∈ p, x ∈ l := by
  induction p generalizing l with
  | nil => intro x hx; cases hx
  | cons q ps ih =>
    cases l with
    | nil => simp [startsWithPat] at h
    | cons c cs =>
      simp only [startsWithPat, Bool.and_eq_true, beq_iff_eq] at h
      intro x hx
      rcases List.mem_cons.mp hx with hx | hx
      · exact hx ▸ h.1 ▸ List.mem_cons_self c cs
      · exact List.mem_cons_of_mem c (ih h.2 x hx)

theorem startsWithPat_self_append (p t : List Char) :
    startsWithPat p (p ++ t) = true := by
  induction p with
  | nil => rfl
  | cons q ps ih => simp [startsWithPat, ih]

/-- If some character of the pattern never occurs in the scanned list,
the replacement leaves the list unchanged (for any fuel). -/
theorem replaceAllFuel_eq_self {pat : List Char} {d : Char} (hd : d ∈ pat) :
    ∀ (n : Nat) (s : List Char), d ∉ s → replaceAllFuel pat n s = s := by
  intro n
  induction n with
  | zero => intro s _; rfl
  | succ m ih =>
    intro s hs
    cases s with
    | nil => rfl
    | cons c cs =>
      have hfalse : startsWithPat pat (c :: cs) = false := by
        cases h : startsWithPat pat (c :: cs)
        · rfl
        · exact absurd (startsWithPat_subset h d hd) hs
      have hcs : d ∉ cs := fun h => hs (List.mem_cons_of_mem c h)
      simp [replaceAllFuel, hfalse, ih cs hcs]

theorem replaceAll_eq_self {pat : List Char} {d : Char} (hd : d ∈ pat)
    {s : List Char} (hs : d ∉ s) : replaceAll pat s = s :=
  replaceAllFuel_eq_self hd s.length s hs

/-- Removing a pattern from a list that begins with that very pattern
consumes the leading occurrence and continues on the remainder. -/
theorem replaceAllFuel_cons_pat {pat : List Char} (hp : pat ≠ [])
    (n : Nat) (s : List Char) :
    replaceAllFuel pat (n + 1) (pat ++ s) = replaceAllFuel pat n s := by
  cases pat with
  | nil => exact absurd rfl hp
  | cons q ps =>
    show replaceAllFuel (q :: ps) (n + 1) (q :: (ps ++ s)) = replaceAllFuel (q :: ps) n s
    rw [replaceAllFuel]
    have hstart : startsWithPat (q :: ps) (q :: (ps ++ s)) = true :=
      startsWithPat_self_append (q :: ps) s
    rw [if_pos hstart]
    have hdrop : List.drop (q :: ps).length (q :: (ps ++ s)) = s := List.drop_left (q :: ps) s
    rw [hdrop]

/-- Scanning over a region that never contains the head character of the
pattern copies that region verbatim. -/
theorem replaceAllFuel_append_skip (d : Char) (ps : List Char) :
    ∀ (pre : List Char), d ∉ pre → ∀ (n : Nat), pre.length ≤ n → ∀ (s : List Char),
    replaceAllFuel (d :: ps) n (pre ++ s) =
      pre ++ replaceAllFuel (d :: ps) (n - pre.length) s := by
  intro pre
  induction pre with
  | nil => intro _ n _ s; simp
  | cons c pre' ih =>
    intro hd n hn s
    cases n with
    | zero => simp at hn
    | succ m =>
      have hdc : (d == c) = false := by
        have : d ≠ c := fun h => hd (h ▸ List.mem_cons_self c pre')
        simp [this]
      have hd' : d ∉ pre' := fun h => hd (List.mem_cons_of_mem c h)
      have hm : pre'.length ≤ m := Nat.le_of_succ_le_succ (by simpa using hn)
      show replaceAllFuel (d :: ps) (m + 1) (c :: (pre' ++ s)) =
        (c :: pre') ++ replaceAllFuel (d :: ps) (m + 1 - (c :: pre').length) s
      rw [replaceAllFuel]
      have hfalse : startsWithPat (d :: ps) (c :: (pre' ++ s)) = false := by
        simp [startsWithPat, hdc]
      rw [if_neg (by simp [hfalse])]
      rw [ih hd' m hm s]
      have hlen : m + 1 - (c :: pre').length = m - pre'.length := by
        simp [Nat.succ_sub_succ]
      rw [hlen, List.cons_append]

/-- Replacing a single character by the empty string is exactly
filtering that character out. -/
theorem replaceAllFuel_single (c : Char) :
    ∀ (n : Nat) (s : List Char), s.length ≤ n →
    replaceAllFuel [c] n s = s.filter (fun x => !(x == c)) := by
  intro n
  induction n with
  | zero =>
    intro s hs
    cases s with
    | nil => rfl
    | cons x xs => simp at hs
  | succ m ih =>
    intro s hs
    cases s with
    | nil => rfl
    | cons x xs =>
      have hxs : xs.length ≤ m := Nat.le_of_succ_le_succ (by simpa using hs)
      by_cases hcx : c = x
      · have hb : (c == x) = true := by simp [hcx]
        have hb' : (x == c) = true := by simp [hcx]
        simp [replaceAllFuel, startsWithPat, hb, hb', ih xs hxs, List.filter_cons]
      · have hb : (c == x) = false := by simp [hcx]
        have hb' : (x == c) = false := by simp [Ne.symm hcx]
        simp [replaceAllFuel, startsWithPat, hb, hb', ih xs hxs, List.filter_cons]

theorem replaceAll_single (c : Char) (s : List Char) :
    replaceAll [c] s = s.filter (fun x => !(x == c)) :=
  replaceAllFuel_single c s.length s le_rfl


theorem parseElem_error {s : List Char} {e : PyErr}
    (h : parseElem s = .error e) : e = .valErr := by
  unfold parseElem at h
  repeat' split at h
  all_goals simp_all

theorem parseItemsFuel_error :
    ∀ (n : Nat) (s : List Char) (e : PyErr),
    parseItemsFuel n s = .error e → e = .valErr := by
  intro n
  induction n with
  | zero =>
    intro s e h
    simpa [parseItemsFuel] using h.symm
  | succ m ih =>
    intro s e h
    unfold parseItemsFuel at h
    split at h
    · split at h <;> simp_all
    · split at h
      · rename_i e1 heq
        cases h
        exact parseElem_error heq
      · split at h
        · split at h
          · rename_i e1 heq
            cases h
            exact ih _ _ heq
          · simp_all
        · split at h <;> simp_all
        · simp_all

theorem pyLiteralEvalList_error {s : List Char} {e : PyErr}
    (h : pyLiteralEvalList s = .error e) : e = .valErr := by
  unfold pyLiteralEvalList at h
  split at h
  · exact parseItemsFuel_error _ _ _ h
  · simpa using h.symm

theorem pySorted_error {l : List PyVal} {e : PyErr}
    (h : pySorted l = .error e) : e = .typeErr := by
  unfold pySorted at h
  split at h
  · simp_all
  · split at h <;> simp_all

theorem pyJoinComma_error {l : List PyVal} {e : PyErr}
    (h : pyJoinComma l = .error e) : e = .typeErr := by
  unfold pyJoinComma at h
  split at h <;> simp_all

theorem try_branch_error {c : List Char} {e : PyErr}
    (h : try_branch c = .error e) : e = .valErr ∨ e = .typeErr := by
  unfold try_branch at h
  split at h
  · split at h
    · rename_i heq
      cases h
      exact Or.inl (pyLiteralEvalList_error heq)
    · split at h
      · rename_i heq
        cases h
        exact Or.inr (pySorted_error heq)
      · split at h
        · rename_i heq
          cases h
          exact Or.inr (pyJoinComma_error heq)
        · simp_all
  · simp_all

theorem clean_itemset_string_error {s : List Char} {e : PyErr}
    (h : clean_itemset_string s = .error e) : e = .typeErr := by
  simp only [clean_itemset_string] at h
  split at h
  · simp_all
  · simp_all
  · rename_i e1 heq
    split at h
    · simp_all
    · cases h
      rcases try_branch_error heq with h1 | h1 <;> simp_all [isCaughtErr]

theorem clean_of_not_list_shaped {s : List Char}
    (h : listShaped (strip_wrappers s) = false) :
    clean_itemset_string s = .ok (remove_quotes (strip_wrappers s)) := by
  have ht : try_branch (strip_wrappers s) = .ok none := by
    simp [try_branch, h]
  simp only [clean_itemset_string, ht]

theorem strip_wrappers_no_braces {s : List Char} :
    ∀ c ∈ strip_wrappers s, ¬(c = '\x7b' ∨ c = '\x7d') := by
  intro c hc
  unfold strip_wrappers at hc
  rw [replaceAll_single, replaceAll_single] at hc
  obtain ⟨hc1, hd2⟩ := List.mem_filter.mp hc
  obtain ⟨_, hd1⟩ := List.mem_filter.mp hc1
  rintro (rfl | rfl) <;> simp_all

theorem mem_remove_quotes {l : List Char} :
    ∀ c ∈ remove_quotes l, c ∈ l ∧ ¬(c = '\x27' ∨ c = '\x22') := by
  intro c hc
  unfold remove_quotes at hc
  rw [replaceAll_single, replaceAll_single] at hc
  obtain ⟨hc1, hd2⟩ := List.mem_filter.mp hc
  obtain ⟨hmem, hd1⟩ := List.mem_filter.mp hc1
  refine ⟨hmem, ?_⟩
  rintro (rfl | rfl) <;> simp_all

theorem strip_wrappers_eq_self {l : List Char}
    (h : ∀ c ∈ l, ¬(c = '\x7b' ∨ c = '\x7d')) : strip_wrappers l = l := by
  have h1 : '\x7b' ∉ l := fun hm => (h _ hm) (Or.inl rfl)
  have h2 : '\x7d' ∉ l := fun hm => (h _ hm) (Or.inr rfl)
  have e1 : replaceAll frozensetPat l = l :=
    replaceAll_eq_self (show '\x7b' ∈ frozensetPat by decide) h1
  have e2 : replaceAll closeBracePat l = l :=
    replaceAll_eq_self (show '\x7d' ∈ closeBracePat by decide) h2
  have e3 : replaceAll ['\x7b'] l = l :=
    replaceAll_eq_self (show '\x7b' ∈ ['\x7b'] by decide) h1
  have e4 : replaceAll ['\x7d'] l = l :=
    replaceAll_eq_self (show '\x7d' ∈ ['\x7d'] by decide) h2
  unfold strip_wrappers
  rw [e1, e2, e3, e4]

theorem remove_quotes_eq_self {l : List Char}
    (h : ∀ c ∈ l, ¬(c = '\x27' ∨ c = '\x22')) : remove_quotes l = l := by
  have h1 : '\x27' ∉ l := fun hm => (h _ hm) (Or.inl rfl)
  have h2 : '\x22' ∉ l := fun hm => (h _ hm) (Or.inr rfl)
  have e1 : replaceAll ['\x27'] l = l :=
    replaceAll_eq_self (show '\x27' ∈ ['\x27'] by decide) h1
  have e2 : replaceAll ['\x22'] l = l :=
    replaceAll_eq_self (show '\x22' ∈ ['\x22'] by decide) h2
  unfold remove_quotes
  rw [e1, e2]

theorem remove_quotes_strip_clean_chars {s : List Char} :
    ∀ c ∈ remove_quotes (strip_wrappers s),
      ¬(c = '\x7b' ∨ c = '\x7d' ∨ c = '\x27' ∨ c = '\x22') := by
  intro c hc
  obtain ⟨hmem, hq⟩ := mem_remove_quotes c hc
  have hb := strip_wrappers_no_braces c hmem
  rintro (h1 | h1 | h1 | h1)
  · exact hb (Or.inl h1)
  · exact hb (Or.inr h1)
  · exact hq (Or.inl h1)
  · exact hq (Or.inr h1)

theorem clean_fixed_point {s : List Char}
    (h2 : listShaped (remove_quotes (strip_wrappers s)) = false) :
    clean_itemset_string (remove_quotes (strip_wrappers s)) =
      .ok (remove_quotes (strip_wrappers s)) := by
  have hchars := remove_quotes_strip_clean_chars (s := s)
  have hbr : ∀ c ∈ remove_quotes (strip_wrappers s), ¬(c = '\x7b' ∨ c = '\x7d') := by
    intro c hc
    rintro (h1 | h1)
    · exact hchars c hc (Or.inl h1)
    · exact hchars c hc (Or.inr (Or.inl h1))
  have hqu : ∀ c ∈ remove_quotes (strip_wrappers s), ¬(c = '\x27' ∨ c = '\x22') := by
    intro c hc
    rintro (h1 | h1)
    · exact hchars c hc (Or.inr (Or.inr (Or.inl h1)))
    · exact hchars c hc (Or.inr (Or.inr (Or.inr h1)))
  have hs : strip_wrappers (remove_quotes (strip_wrappers s)) =
      remove_quotes (strip_wrappers s) := strip_wrappers_eq_self hbr
  have hl : listShaped (strip_wrappers (remove_quotes (strip_wrappers s))) = false := by
    rw [hs]; exact h2
  have hmain := clean_of_not_list_shaped hl
  rw [hs] at hmain
  rw [hmain, remove_quotes_eq_self hqu]

/-- Claim C1, counterexample.  The claim says cleaning a frozenset
serialization returns the terms in lexicographically sorted order, with
cleaning "frozenset(\x7b'#ml', '#ai'\x7d)" yielding "#ai, #ml"; the code
keeps the serialization order and yields "#ml, #ai", because the
sorting branch only runs for bracket-shaped strings and the stripped
frozenset body is not bracket-shaped. -/
theorem clean_frozenset_not_sorted :
    clean_itemset_string "frozenset(\x7b\x27#ml\x27, \x27#ai\x27\x7d)".data =
      Except.ok "#ml, #ai".data ∧
    "#ml, #ai".data ≠ "#ai, #ml".data := by
  constructor
  · decide
  · decide

/-- Claim C1, amended.  For every input of the form
"frozenset(\x7b'X', 'Y'\x7d)" whose terms contain no brace or quote
characters, clean_itemset_string returns the terms joined by ", " in
their original serialization order (not sorted), with the quotes
stripped by the fallback. -/
theorem clean_frozenset_two_terms (X Y : List Char)
    (hX : goodTerm X = true) (hY : goodTerm Y = true) :
    clean_itemset_string (frozensetTwo X Y) = Except.ok (X ++ ([',', ' '] ++ Y)) := by
  have hXc : ∀ c ∈ X, ¬(c = '\x7b' ∨ c = '\x7d' ∨ c = '\x27' ∨ c = '\x22') := by
    intro c hc hcontra
    have hall := (List.all_eq_true.mp hX) c hc
    rcases hcontra with rfl | rfl | rfl | rfl <;> simp_all
  have hYc : ∀ c ∈ Y, ¬(c = '\x7b' ∨ c = '\x7d' ∨ c = '\x27' ∨ c = '\x22') := by
    intro c hc hcontra
    have hall := (List.all_eq_true.mp hY) c hc
    rcases hcontra with rfl | rfl | rfl | rfl <;> simp_all
  have hbodyNoOpen : '\x7b' ∉ quotedBody X Y := by
    intro hm
    simp only [quotedBody, List.mem_cons, List.mem_append] at hm
    rcases hm with h | h | h | h | h
    · exact absurd h (by decide)
    · exact hXc _ h (Or.inl rfl)
    · exact absurd h (by decide)
    · exact hYc _ h (Or.inl rfl)
    · exact absurd h (by decide)
  have hbodyNoClose : '\x7d' ∉ quotedBody X Y := by
    intro hm
    simp only [quotedBody, List.mem_cons, List.mem_append] at hm
    rcases hm with h | h | h | h | h
    · exact absurd h (by decide)
    · exact hXc _ h (Or.inr (Or.inl rfl))
    · exact absurd h (by decide)
    · exact hYc _ h (Or.inr (Or.inl rfl))
    · exact absurd h (by decide)
  have hrestNoOpen : '\x7b' ∉ quotedBody X Y ++ closeBracePat := by
    intro hm
    rcases List.mem_append.mp hm with h | h
    · exact hbodyNoOpen h
    · exact absurd h (by decide)
  have stepA : replaceAll frozensetPat (frozensetTwo X Y) =
      quotedBody X Y ++ closeBracePat := by
    unfold replaceAll frozensetTwo
    have hL : (frozensetPat ++ (quotedBody X Y ++ closeBracePat)).length =
        (quotedBody X Y ++ closeBracePat).length + 10 + 1 := by
      rw [List.length_append]
      have : frozensetPat.length = 11 := rfl
      omega
    rw [hL, replaceAllFuel_cons_pat (by decide)]
    exact replaceAllFuel_eq_self (show '\x7b' ∈ frozensetPat by decide) _ _ hrestNoOpen
  have stepB : replaceAll closeBracePat (quotedBody X Y ++ closeBracePat) =
      quotedBody X Y := by
    unfold replaceAll
    have hL : (quotedBody X Y ++ closeBracePat).length = (quotedBody X Y).length + 2 := by
      rw [List.length_append]
      rfl
    rw [hL]
    rw [show closeBracePat = '\x7d' :: [')'] from rfl]
    rw [replaceAllFuel_append_skip '\x7d' [')'] (quotedBody X Y)
      (by simpa using hbodyNoClose) ((quotedBody X Y).length + 2) (by omega) ('\x7d' :: [')'])]
    have h2 : (quotedBody X Y).length + 2 - (quotedBody X Y).length = 2 := by omega
    rw [h2]
    rw [show replaceAllFuel ('\x7d' :: [')']) 2 ('\x7d' :: [')']) = [] from rfl]
    exact List.append_nil _
  have stepC : replaceAll ['\x7b'] (quotedBody X Y) = quotedBody X Y :=
    replaceAll_eq_self (show '\x7b' ∈ ['\x7b'] by decide) hbodyNoOpen
  have stepD : replaceAll ['\x7d'] (quotedBody X Y) = quotedBody X Y :=
    replaceAll_eq_self (show '\x7d' ∈ ['\x7d'] by decide) hbodyNoClose
  have hstrip : strip_wrappers (frozensetTwo X Y) = quotedBody X Y := by
    unfold strip_wrappers
    rw [stepA, stepB, stepC, stepD]
  have hshape : listShaped (quotedBody X Y) = false := by
    simp [listShaped, quotedBody]
  have hmain := clean_of_not_list_shaped (s := frozensetTwo X Y) ?hls
  case hls => rw [hstrip]; exact hshape
  rw [hstrip] at hmain
  rw [hmain]
  have hfX : X.filter (fun x => !(x == '\x27')) = X := by
    rw [List.filter_eq_self]
    intro a ha
    have : a ≠ '\x27' := fun hh => hXc a ha (Or.inr (Or.inr (Or.inl hh)))
    simp [this]
  have hfY : Y.filter (fun x => !(x == '\x27')) = Y := by
    rw [List.filter_eq_self]
    intro a ha
    have : a ≠ '\x27' := fun hh => hYc a ha (Or.inr (Or.inr (Or.inl hh)))
    simp [this]
  have h1 : (quotedBody X Y).filter (fun x => !(x == '\x27')) = X ++ ([',', ' '] ++ Y) := by
    simp only [quotedBody, List.filter_cons, List.filter_append]
    rw [hfX, hfY]
    simp
  have h2 : (X ++ ([',', ' '] ++ Y)).filter (fun x => !(x == '\x22')) =
      X ++ ([',', ' '] ++ Y) := by
    rw [List.filter_eq_self]
    intro a ha
    rcases List.mem_append.mp ha with h | h
    · have : a ≠ '\x22' := fun hh => hXc a h (Or.inr (Or.inr (Or.inr hh)))
      simp [this]
    · rcases List.mem_append.mp h with h | h
      · simp only [List.mem_cons, List.not_mem_nil, or_false] at h
        rcases h with rfl | rfl <;> decide
      · have : a ≠ '\x22' := fun hh => hYc a h (Or.inr (Or.inr (Or.inr hh)))
        simp [this]
  have hrq : remove_quotes (quotedBody X Y) = X ++ ([',', ' '] ++ Y) := by
    unfold remove_quotes
    rw [replaceAll_single, replaceAll_single, h1, h2]
  rw [hrq]

/-- Claim C1, witness for the amended theorem at the terms of the
counterexample: cleaning keeps the original order "#ml, #ai". -/
theorem clean_frozenset_two_terms_witness :
    goodTerm "#ml".data = true ∧ goodTerm "#ai".data = true ∧
    clean_itemset_string (frozensetTwo "#ml".data "#ai".data) =
      Except.ok ("#ml".data ++ ([',', ' '] ++ "#ai".data)) :=
  ⟨by decide, by decide,
    clean_frozenset_two_terms "#ml".data "#ai".data (by decide) (by decide)⟩

/-- Claim C2, counterexample.  The claim says clean_itemset_string
never raises; on input "[1, 2]" the bracketed-list parse succeeds with
integer elements, and the join inside the try block raises TypeError,
which the except clause (catching only ValueError and SyntaxError)
does not intercept, so the exception escapes to the caller. -/
theorem clean_raises_on_int_list :
    clean_itemset_string "[1, 2]".data = Except.error PyErr.typeErr := by
  decide

/-- Claim C2, amended.  Every ValueError or SyntaxError parse failure
of the bracketed-list branch is caught and execution falls through to
the quote-stripping fallback, so any exception that escapes
clean_itemset_string is a TypeError (possible only when a successfully
parsed list has non-string elements); on every input whose stripped
form is not list-shaped the function returns normally. -/
theorem clean_total_except_typeerror (s : List Char) :
    (∀ e, clean_itemset_string s = Except.error e → e = PyErr.typeErr) ∧
    (listShaped (strip_wrappers s) = false → (clean_itemset_string s).isOk = true) := by
  constructor
  · intro e h
    exact clean_itemset_string_error h
  · intro h
    rw [clean_of_not_list_shaped h]
    rfl

/-- Claim C2, witness: a plain hashtag is not list-shaped after
stripping and cleaning it returns normally. -/
theorem clean_total_except_typeerror_witness :
    listShaped (strip_wrappers "#tag".data) = false ∧
    (clean_itemset_string "#tag".data).isOk = true :=
  ⟨by decide, (clean_total_except_typeerror "#tag".data).2 (by decide)⟩

/-- Claim C3, counterexample.  The claim says any rules load failure
leaves the rules result absent (None) so rendering shows the no-rules
placeholder; but rules is assigned inside the try as soon as the read
succeeds, so when only the subsequent cleaning raises, load_data
returns the raw table (not None) with the warning, and the rules panel
renders that table instead of the placeholder. -/
theorem rules_cleaning_failure_keeps_raw_table :
    load_data envRulesCleanFail =
      Except.ok (⟨some [demoRow], none, some [badRule], none, some []⟩,
        [Msg.couldNotLoadRulesFile]) ∧
    render_rules_section (some [badRule]) badRule.cluster =
      RulesView.rulesTable [badRule] ∧
    RulesView.rulesTable [badRule] ≠ RulesView.noRulesData := by
  refine ⟨by decide, by decide, by decide⟩

/-- Claim C3, amended.  If the rules file exists but reading it fails,
while the primary table loads and the other reads do not raise, then
load_data returns normally with a user-visible warning and an absent
rules component, and the rules panel renders the no-rules placeholder;
when only the in-place cleaning after a successful read fails, the
warning is still emitted but the rules component keeps the table bound
inside the try, which is then rendered. -/
theorem rules_read_failure_warns_and_absent (env : Env) (df : List TweetRow) (sel : Int)
    (hdf : env.clusterCsv = ClusterRead.ok df)
    (hsum : env.summaryCsv ≠ some (Except.error ()))
    (humap : env.umapHtml ≠ some (Except.error ()))
    (hrf : env.rulesCsv = some (Except.error ())) :
    ∃ res msgs, load_data env = Except.ok (res, msgs) ∧
      res.rules = none ∧ Msg.couldNotLoadRulesFile ∈ msgs ∧
      render_rules_section res.rules sel = RulesView.noRulesData := by
  have hstep : load_rules_step env.rulesCsv = (none, [Msg.couldNotLoadRulesFile]) := by
    rw [hrf]
    rfl
  unfold load_data
  rw [hdf]
  cases hsc : env.summaryCsv with
  | none =>
    cases huc : env.umapHtml with
    | none =>
      exact ⟨⟨some df, none, none, none, some env.clusterPlotFiles⟩,
        [Msg.couldNotLoadRulesFile], by simp [hstep], rfl, by simp, rfl⟩
    | some u =>
      cases u with
      | error e => exact absurd huc humap
      | ok t =>
        exact ⟨⟨some df, none, none, some t, some env.clusterPlotFiles⟩,
          [Msg.couldNotLoadRulesFile], by simp [hstep], rfl, by simp, rfl⟩
  | some sv =>
    cases sv with
    | error e => exact absurd hsc hsum
    | ok t =>
      cases huc : env.umapHtml with
      | none =>
        exact ⟨⟨some df, some t, none, none, some env.clusterPlotFiles⟩,
          [Msg.couldNotLoadRulesFile], by simp [hstep], rfl, by simp, rfl⟩
      | some u =>
        cases u with
        | error e => exact absurd huc humap
        | ok h =>
          exact ⟨⟨some df, some t, none, some h, some env.clusterPlotFiles⟩,
            [Msg.couldNotLoadRulesFile], by simp [hstep], rfl, by simp, rfl⟩

/-- Claim C3, witness: an environment whose rules file raises on read
produces the warning, an absent rules component and the placeholder. -/
theorem rules_read_failure_warns_and_absent_witness :
    ∃ res msgs, load_data envRulesBad = Except.ok (res, msgs) ∧
      res.rules = none ∧ Msg.couldNotLoadRulesFile ∈ msgs ∧
      render_rules_section res.rules 0 = RulesView.noRulesData :=
  rules_read_failure_warns_and_absent envRulesBad [demoRow] 0
    rfl (by decide) (by decide) rfl

theorem getD_indexOf_mem (a : Int) :
    ∀ l : List Int, a ∈ l → l.getD (l.indexOf a) 0 = a := by
  intro l
  induction l with
  | nil => intro h; cases h
  | cons x xs ih =>
    intro h
    by_cases hxa : x = a
    · subst hxa
      rw [List.indexOf_cons_self]
      rfl
    · rw [List.indexOf_cons_ne _ hxa]
      have hmem : a ∈ xs := by
        rcases List.mem_cons.mp h with h1 | h1
        · exact absurd h1.symm hxa
        · exact h1
      simpa using ih hmem

theorem pandas_unique_ne_nil {l : List Int} (h : l ≠ []) : pandas_unique l ≠ [] := by
  cases l with
  | nil => exact absurd rfl h
  | cons x xs => simp [pandas_unique, pandas_unique_fuel]

theorem clusters_of_ne_nil {df : List TweetRow} (h : df ≠ []) : clusters_of df ≠ [] := by
  intro hnil
  have h1 : (pandas_unique (df.map fun r => r.cluster)) ≠ [] :=
    pandas_unique_ne_nil (fun hm => h (List.map_eq_nil_iff.mp hm))
  have hlen : (pandas_unique (df.map fun r => r.cluster)).length = 0 := by
    rw [← List.length_insertionSort (fun a b : Int => a ≤ b)
      (pandas_unique (df.map fun r => r.cluster))]
    rw [show List.insertionSort (fun a b : Int => a ≤ b)
      (pandas_unique (df.map fun r => r.cluster)) = clusters_of df from rfl, hnil]
    rfl
  exact h1 (List.length_eq_zero.mp hlen)

/-- Claim C4.  For every non-empty primary table, the default cluster
selection picks identifier 0 when present, else -1 when present, else
the first identifier of the sorted distinct-identifier list. -/
theorem default_cluster_selection (df : List TweetRow) (h : df ≠ []) :
    selected_cluster_default (clusters_of df) =
      (if (0 : Int) ∈ clusters_of df then 0
       else if (-1 : Int) ∈ clusters_of df then -1
       else (clusters_of df).headI) := by
  have hne := clusters_of_ne_nil h
  unfold selected_cluster_default default_index
  by_cases h0 : (0 : Int) ∈ clusters_of df
  · rw [if_pos h0, if_pos h0]
    exact getD_indexOf_mem 0 _ h0
  · rw [if_neg h0, if_neg h0]
    by_cases h1 : (-1 : Int) ∈ clusters_of df
    · rw [if_pos h1, if_pos h1]
      exact getD_indexOf_mem (-1) _ h1
    · rw [if_neg h1, if_neg h1]
      cases hcs : clusters_of df with
      | nil => exact absurd hcs hne
      | cons c cs => rfl

/-- Claim C4, witness: a table with identifiers -1 and 2 defaults to
the sentinel -1. -/
theorem default_cluster_selection_witness :
    demoDfNoZero ≠ [] ∧
    selected_cluster_default (clusters_of demoDfNoZero) =
      (if (0 : Int) ∈ clusters_of demoDfNoZero then 0
       else if (-1 : Int) ∈ clusters_of demoDfNoZero then -1
       else (clusters_of demoDfNoZero).headI) :=
  ⟨by decide, default_cluster_selection demoDfNoZero (by decide)⟩

/-- Claim C5.  For every rules table and selected cluster, the
displayed rules slice contains only rows whose cluster field equals the
selection, is ordered with lift non-increasing, and has at most 20
rows. -/
theorem displayed_rules_spec (rs : List Rule) (sel : Int) :
    ((displayed_rules rs sel).all fun r => r.cluster == sel) = true ∧
    List.Pairwise (fun a b : Rule => b.lift ≤ a.lift) (displayed_rules rs sel) ∧
    (displayed_rules rs sel).length ≤ 20 := by
  refine ⟨?_, ?_, ?_⟩
  · rw [List.all_eq_true]
    intro r hr
    have h1 : r ∈ List.insertionSort (fun a b : Rule => b.lift ≤ a.lift)
        (rs.filter (fun r => r.cluster == sel)) :=
      List.take_subset 20 _ hr
    have h2 : r ∈ rs.filter (fun r => r.cluster == sel) :=
      (List.mem_insertionSort (fun a b : Rule => b.lift ≤ a.lift)).mp h1
    exact (List.mem_filter.mp h2).2
  · have hsorted : List.Pairwise (fun a b : Rule => b.lift ≤ a.lift)
        (List.insertionSort (fun a b : Rule => b.lift ≤ a.lift)
          (rs.filter (fun r => r.cluster == sel))) :=
      List.sorted_insertionSort (fun a b : Rule => b.lift ≤ a.lift) _
    exact List.Pairwise.sublist (List.take_sublist 20 _) hsorted
  · exact List.length_take_le 20 _

/-- Claim C6, counterexample.  The claim covers a primary table file
that is "absent or unreadable"; when the file is present but unreadable
(any read failure other than FileNotFoundError), the exception is not
caught: load_data raises instead of reporting the error and returning
the none-sentinel tuple, and the session crashes rather than stopping
through the df-is-None check. -/
theorem unreadable_primary_table_uncaught :
    load_data envUnreadable = Except.error () ∧
    app_outcome envUnreadable = AppOutcome.crashed := by
  constructor
  · rfl
  · rfl

/-- Claim C6, amended.  When the required primary table file is absent
(FileNotFoundError), load_data reports the user-visible error, returns
the all-None tuple, and the caller stops all further processing. -/
theorem missing_primary_table_fatal (env : Env)
    (h : env.clusterCsv = ClusterRead.fileNotFound) :
    load_data env = Except.ok (⟨none, none, none, none, none⟩,
      [Msg.couldNotFindClusterFile]) ∧
    app_outcome env = AppOutcome.stopped := by
  constructor
  · unfold load_data
    rw [h]
  · unfold app_outcome load_data
    rw [h]

/-- Claim C6, witness: an environment with a missing primary table
file stops the session after the error message. -/
theorem missing_primary_table_fatal_witness :
    load_data envFatal = Except.ok (⟨none, none, none, none, none⟩,
      [Msg.couldNotFindClusterFile]) ∧
    app_outcome envFatal = AppOutcome.stopped :=
  missing_primary_table_fatal envFatal rfl

/-- Claim C7, counterexample.  The claim says no bracket wrapper token
survives in the output for any input; on input "[a]" the bracketed-list
parse fails (a bare name is not a literal), the fallback strips no
quotes, and the output "[a]" still contains both bracket characters. -/
theorem clean_keeps_brackets_on_parse_failure :
    clean_itemset_string "[a]".data = Except.ok "[a]".data ∧
    '[' ∈ "[a]".data ∧ ']' ∈ "[a]".data := by
  refine ⟨by decide, by decide, by decide⟩

/-- Claim C7, amended.  For every input whose stripped form is not
list-shaped, the output of clean_itemset_string contains no quote and
no brace characters; on other inputs wrapper tokens can survive: a
bracket-shaped input whose parse fails is returned with its brackets
intact, and a successfully parsed element is returned as parsed, so a
string-literal escape can even reintroduce quote or brace
characters. -/
theorem clean_fallback_no_quotes_or_braces (s : List Char)
    (h : listShaped (strip_wrappers s) = false) :
    clean_itemset_string s = Except.ok (remove_quotes (strip_wrappers s)) ∧
    ∀ c ∈ remove_quotes (strip_wrappers s),
      ¬(c = '\x7b' ∨ c = '\x7d' ∨ c = '\x27' ∨ c = '\x22') :=
  ⟨clean_of_not_list_shaped h, remove_quotes_strip_clean_chars⟩

/-- Claim C7, witness: a single-element frozenset serialization cleans
to a quote-free, brace-free string. -/
theorem clean_fallback_no_quotes_or_braces_witness :
    listShaped (strip_wrappers "frozenset(\x7b\x27#ai\x27\x7d)".data) = false ∧
    clean_itemset_string "frozenset(\x7b\x27#ai\x27\x7d)".data =
      Except.ok (remove_quotes (strip_wrappers "frozenset(\x7b\x27#ai\x27\x7d)".data)) :=
  ⟨by decide,
    (clean_fallback_no_quotes_or_braces "frozenset(\x7b\x27#ai\x27\x7d)".data (by decide)).1⟩

/-- On a list-shaped input a hex escape inside a parsed string literal
reintroduces a brace character, as in Python: cleaning the eight
characters bracket quote backslash x 7 b quote bracket yields the
one-character string holding an opening brace.  So quote- and
brace-freedom cannot hold on the literal-parsing path, which is why the
amended statement above is restricted to inputs that are not
list-shaped after stripping. -/
theorem clean_parsed_escape_yields_brace :
    clean_itemset_string "[\x27\\x7b\x27]".data = Except.ok ['\x7b'] := by
  decide

/-- Claim C8.  The derived hashtags_str column is the textual hashtags
value with the bracket characters and single quotes filtered out, a
plain character-level cleanup; it does not invoke the literal-parsing
cleaner, which on the same list-shaped input additionally sorts the
terms (the derivation keeps "#b, #a" where the literal cleaner returns
"#a, #b"). -/
theorem hashtags_str_derivation :
    (∀ s : List Char, hashtags_str_derive s =
      s.filter fun c => !(c == '[' || c == ']' || c == '\x27')) ∧
    (clean_itemset_string "[\x27#b\x27, \x27#a\x27]".data = Except.ok "#a, #b".data ∧
     hashtags_str_derive "[\x27#b\x27, \x27#a\x27]".data = "#b, #a".data) := by
  constructor
  · intro s
    unfold hashtags_str_derive
    rw [replaceAll_single, replaceAll_single, replaceAll_single]
    rw [List.filter_filter, List.filter_filter]
    apply List.filter_congr
    intro a _
    cases h1 : a == '[' <;> cases h2 : a == ']' <;> cases h3 : a == '\x27' <;>
      simp [h1, h2, h3]
  · exact ⟨by decide, by decide⟩

/-- Claim C9, counterexample.  The claim says cleaning is idempotent on
every input that is not list-shaped after stripping; the input "'[]'"
is such an input (it starts with a quote), cleans to "[]", but cleaning
"[]" again parses the empty list and returns "", so cleaning twice
differs from cleaning once. -/
theorem clean_not_idempotent :
    clean_itemset_string "\x27[]\x27".data = Except.ok "[]".data ∧
    Except.bind (clean_itemset_string "\x27[]\x27".data) clean_itemset_string ≠
      clean_itemset_string "\x27[]\x27".data := by
  constructor
  · decide
  · intro hcontra
    rw [show clean_itemset_string "\x27[]\x27".data = Except.ok "[]".data from by decide] at hcontra
    rw [show Except.bind (Except.ok "[]".data) clean_itemset_string =
      clean_itemset_string "[]".data from rfl] at hcontra
    rw [show clean_itemset_string "[]".data = Except.ok [] from by decide] at hcontra
    simp at hcontra

theorem except_bind_ok_clean (r : List Char) :
    Except.bind (Except.ok r) clean_itemset_string = clean_itemset_string r := rfl

/-- Claim C9, amended.  For every input whose stripped form is not
list-shaped, cleaning returns the stripped form with quotes removed;
and when that result is itself not list-shaped (in particular whenever
quote removal cannot expose a bracketed list), cleaning twice equals
cleaning once. -/
theorem clean_not_list_shaped_idempotent (s : List Char)
    (h1 : listShaped (strip_wrappers s) = false)
    (h2 : listShaped (remove_quotes (strip_wrappers s)) = false) :
    clean_itemset_string s = Except.ok (remove_quotes (strip_wrappers s)) ∧
    Except.bind (clean_itemset_string s) clean_itemset_string =
      clean_itemset_string s := by
  have hmain := clean_of_not_list_shaped h1
  refine ⟨hmain, ?_⟩
  rw [hmain, except_bind_ok_clean]
  exact clean_fixed_point h2

/-- Claim C9, witness: a plain hashtag cleans to itself and cleaning
it twice changes nothing. -/
theorem clean_not_list_shaped_idempotent_witness :
    clean_itemset_string "#standalone".data =
      Except.ok (remove_quotes (strip_wrappers "#standalone".data)) ∧
    Except.bind (clean_itemset_string "#standalone".data) clean_itemset_string =
      clean_itemset_string "#standalone".data :=
  ⟨(clean_not_list_shaped_idempotent "#standalone".data (by decide) (by decide)).1,
   (clean_not_list_shaped_idempotent "#standalone".data (by decide) (by decide)).2⟩

/-- Claim C10.  Whenever load_data returns its five-component tuple,
the primary-table component is None exactly on the fatal
missing-primary-table path, and on that path every component is None;
so the caller's single df-is-None check detects exactly the fatal
case. -/
theorem load_data_none_sentinel (env : Env) (res : LoadResult) (msgs : List Msg)
    (h : load_data env = Except.ok (res, msgs)) :
    (res.df = none ↔ env.clusterCsv = ClusterRead.fileNotFound) ∧
    (res.df = none → res = ⟨none, none, none, none, none⟩) := by
  cases hc : env.clusterCsv with
  | fileNotFound =>
    unfold load_data at h
    rw [hc] at h
    simp only [Except.ok.injEq, Prod.mk.injEq] at h
    obtain ⟨rfl, rfl⟩ := h
    exact ⟨by simp [hc], fun _ => rfl⟩
  | otherError =>
    unfold load_data at h
    rw [hc] at h
    simp at h
  | ok df =>
    unfold load_data at h
    rw [hc] at h
    have hdf : res.df = some df := by
      cases hsc : env.summaryCsv with
      | none =>
        rw [hsc] at h
        cases huc : env.umapHtml with
        | none =>
          rw [huc] at h
          simp only [Except.ok.injEq, Prod.mk.injEq] at h
          obtain ⟨rfl, rfl⟩ := h
          rfl
        | some u =>
          cases u with
          | error e => rw [huc] at h; simp at h
          | ok t =>
            rw [huc] at h
            simp only [Except.ok.injEq, Prod.mk.injEq] at h
            obtain ⟨rfl, rfl⟩ := h
            rfl
      | some sv =>
        cases sv with
        | error e => rw [hsc] at h; simp at h
        | ok t =>
          rw [hsc] at h
          cases huc : env.umapHtml with
          | none =>
            rw [huc] at h
            simp only [Except.ok.injEq, Prod.mk.injEq] at h
            obtain ⟨rfl, rfl⟩ := h
            rfl
          | some u =>
            cases u with
            | error e => rw [huc] at h; simp at h
            | ok w =>
              rw [huc] at h
              simp only [Except.ok.injEq, Prod.mk.injEq] at h
              obtain ⟨rfl, rfl⟩ := h
              rfl
    refine ⟨⟨fun habs => ?_, fun habs => ?_⟩, fun habs => ?_⟩
    · rw [hdf] at habs
      simp at habs
    · simp at habs
    · rw [hdf] at habs
      simp at habs

/-- Claim C10, witness: on a healthy environment the returned df is
present, matching the non-fatal side of the equivalence. -/
theorem load_data_none_sentinel_witness :
    (resOk.df = none ↔ envOk.clusterCsv = ClusterRead.fileNotFound) ∧
    (resOk.df = none → resOk = ⟨none, none, none, none, none⟩) :=
  load_data_none_sentinel envOk resOk [] (by decide)
